import Mathlib

/-!
Shallow embedding of the plugin lifecycle/dependency engine of
`src/Pluginloader3.ts` (class `PluginLoader3`), together with theorems
settling the frozen claims about its specification.

Modelling conventions:
* JavaScript objects used as string-keyed maps (`loadedPlugins`,
  `startedPlugins`, `dependencyTree`, `resolverTable`) are association
  lists in insertion order; overwriting keeps the position of the key,
  `delete` removes the entry.
* Execution is single-threaded and event-driven (spec §5).  Deferred
  work (`setTimeout` emissions, resolved-promise continuations) is
  modelled as an explicit FIFO task list processed one task per step;
  `async` fan-out (`forEach`/`Promise.all` with async callbacks) is
  linearized in initiation order, which is faithful up to the
  interleaving of independent awaits.
* External collaborators are abstracted exactly where the source calls
  them: `semver.satisfies` is a parameter (`Ext`), `fs.readdir` of the
  plugin directory is the `pluginDirFiles` field, a dynamic `import` of
  a plugin file is the `diskImport` field (`none` = the import throws /
  has no usable default export), lifecycle hooks of plugins and the
  storage / provisioning collaborators perform no engine-visible state
  change and are recorded only by presence flags.
-/

namespace BotCore

/-! ### JavaScript-object association lists -/

/-- Evaluation of `obj[k]` on a string-keyed JS object: first entry with that key. -/
def jsGet {α : Type} (m : List (String × α)) (k : String) : Option α :=
  match m with
  | [] => none
  | e :: rest => if e.1 == k then some e.2 else jsGet rest k

/-- Assignment `obj[k] = v`: overwrite in place if the key exists, else append. -/
def jsSet {α : Type} (m : List (String × α)) (k : String) (v : α) :
    List (String × α) :=
  match m with
  | [] => [(k, v)]
  | e :: rest => if e.1 == k then (k, v) :: rest else e :: jsSet rest k v

/-- Deletion `delete obj[k]`. -/
def jsDelete {α : Type} (m : List (String × α)) (k : String) :
    List (String × α) :=
  match m with
  | [] => []
  | e :: rest => if e.1 == k then jsDelete rest k else e :: jsDelete rest k

/-- Keys `Object.keys(obj)` in insertion order. -/
def jsKeys {α : Type} (m : List (String × α)) : List String :=
  m.map Prod.fst

/-! ### JavaScript string operations used by the loader -/

/-- Lowercasing `s.toLowerCase()` as a character list (plugin names are ASCII). -/
def lcs (s : String) : List Char :=
  s.data.map Char.toLower

/-- Containment `hay.includes(needle)` on character lists. -/
def charListIncludes (hay needle : List Char) : Bool :=
  match hay with
  | [] => needle.isEmpty
  | _ :: t => needle.isPrefixOf hay || charListIncludes t needle

/-- Containment `hay.toLowerCase().includes(needle.toLowerCase())`, the membership
test the loader uses everywhere. -/
def jsIncludes (hay needle : String) : Bool :=
  charListIncludes (lcs hay) (lcs needle)

/-- The filter of `listPlugins` (source lines 386-390): the regex
`/(.*)\.(?:ts|js)$/i` requires a `.ts`/`.js` source extension, and the
captured base name, lowercased, must end with the (lowercased)
configured `fileExtension` marker. -/
def isPluginFile (ext : String) (file : String) : Bool :=
  let low := lcs file
  (".ts".data.isSuffixOf low || ".js".data.isSuffixOf low)
    && (lcs ext).isSuffixOf (low.take (low.length - 3))

/-! ### Data model (`src/Plugin.ts`) -/

/-- A dependency's required state, the `"started" | "loaded"` strings. -/
inductive ReqState where
  | started
  | loaded
deriving DecidableEq, Fintype

/-- The object form of a `PluginDependency` declaration
(`{state?, optional?, version?}` in `src/Plugin.ts`). -/
structure DepSpec where
  state : Option ReqState
  optional : Bool
  version : Option String
deriving DecidableEq

/-- A value of `pluginDependencies`: either the bare string
`"started"`/`"loaded"` or a `PluginDependency` object. -/
inductive DepVal where
  | plain (s : ReqState)
  | obj (d : DepSpec)
deriving DecidableEq

/-- What `(dep as PluginDependency).state || dep` compares equal to.
`other` is the case of an object without a `state` field: the JS
expression then yields the object itself, which is `=== "started"` and
`=== "loaded"` to neither string. -/
inductive EffState where
  | started
  | loaded
  | other
deriving DecidableEq

def ReqState.toEff : ReqState → EffState
  | .started => .started
  | .loaded => .loaded

/-- Normalization `(dep as PluginDependency).state || dep` (source line 494). -/
def DepVal.effState : DepVal → EffState
  | .plain s => s.toEff
  | .obj d =>
    match d.state with
    | some s => s.toEff
    | none => .other

/-- Normalization `(dep as PluginDependency).optional || false` (source line 495). -/
def DepVal.optionalB : DepVal → Bool
  | .plain _ => false
  | .obj d => d.optional

/-- Normalization `(dep as PluginDependency).version || "*"` (source line 496). -/
def DepVal.versionS : DepVal → String
  | .plain _ => "*"
  | .obj d => d.version.getD "*"

/-- Normalization `(state as PluginDependency).state || state || "started"`, the
value stored in the dependency tree (source line 537). The `"started"`
fallback is unreachable for the representable values. -/
def DepVal.storedState : DepVal → EffState :=
  DepVal.effState

/-- Shape of `MetaInformation` (`src/Plugin.ts`). `author` may also be a string
array in the source; only its presence matters to the engine. -/
structure MetaInformation where
  name : String
  version : String
  description : String
  author : String
  apiVersion : String
  dependencies : List (String × String)
  pluginDependencies : List (String × DepVal)
  stayLoadedOnDependencyLoss : Bool
deriving DecidableEq

/-- An imported plugin module: its `__meta` block plus the presence
flags of the four optional lifecycle hooks (the hooks themselves are
external effects with no engine-visible state change). -/
structure Plugin where
  meta : MetaInformation
  hasLoad : Bool
  hasStart : Bool
  hasStop : Bool
  hasUnload : Bool
deriving DecidableEq

/-- The errors thrown by the loader (`src/Pluginloader3.ts` lines
14-59), plus `jsTypeError` for a raw JavaScript `TypeError` such as
`Object.entries(undefined)`. -/
inductive PLError where
  | invalidPlugin (filename : String)
  | alreadyLoaded (filename : String)
  | alreadyStarted (filename : String)
  | stillStarted (filename : String)
  | notLoaded (filename : String)
  | notStarted (filename : String)
  | apiVersionMismatch (filename api required : String)
  | missingDependency (filename dep : String)
  | fileNotFound (filename : String)
  | jsTypeError
deriving DecidableEq

/-- A suspended `loadPlugin` call parked in `loadingQueue` (source
lines 181-184, 521-530). `plugin` is the raw `fileID` the call
received (that is what the queue stores); `resolved` and `targetState`
are the variables captured by the suspended continuation; `fired`
records whether the one-shot resume promise has been resolved. -/
structure QueueEntry where
  plugin : String
  resolved : String
  targetState : Option ReqState
  fired : Bool
deriving DecidableEq

/-- Deferred work of the event loop: `setTimeout` lifecycle emissions
(the `startAfter` flag of `emitLoaded` is the trailing
`if (targetState === "started") this.startPlugin(resolved)` of the same
callback, source lines 553-559) and the continuation of a resumed
suspended load. -/
inductive PLTask where
  | emitLoaded (resolved : String) (info : MetaInformation) (startAfter : Bool)
  | emitStarted (resolved : String) (info : MetaInformation)
  | emitStopped (resolved : String) (info : MetaInformation)
  | emitUnloaded (resolved : String) (info : MetaInformation)
  | resume (resolved : String) (targetState : Option ReqState)
deriving DecidableEq

/-- The mutable state of one `PluginLoader3` instance, together with
the snapshot of its external inputs (plugin directory listing and what
a dynamic `import` of each file would produce). -/
structure LoaderState where
  apiVersion : String
  fileExtension : String
  pluginDirFiles : List String
  diskImport : List (String × Plugin)
  loadedPlugins : List (String × Plugin)
  startedPlugins : List (String × Plugin)
  dependencyTree : List (String × List (String × EffState))
  resolverTable : List (String × String)
  loadingQueue : List QueueEntry
deriving DecidableEq

/-- A loader optionally chained to a parent loader (scope
composition, source lines 159, 316-357). -/
inductive Loader where
  | root (st : LoaderState)
  | child (st : LoaderState) (parent : Loader)
deriving DecidableEq

def Loader.st : Loader → LoaderState
  | .root s => s
  | .child s _ => s

def Loader.withSt : Loader → LoaderState → Loader
  | .root _, s => .root s
  | .child _ p, s => .child s p

/-- External collaborators: `semver.satisfies(version, range)`. -/
structure Ext where
  semverSatisfies : String → String → Bool

/-- Outcome of a lifecycle operation's promise: settled, or still
pending on the suspension queue. -/

inductive Outcome where
  | done
  | suspended
deriving DecidableEq

/-- Result of a lifecycle operation: its settled/thrown result, the
loader afterwards, and the deferred tasks it scheduled. -/
structure OpResult where
  res : Except PLError Outcome
  loader : Loader
  tasks : List PLTask

/-! ### Resolver and lookups (source lines 384-466) -/

/-- Listing `listPlugins` (source lines 384-393), local part: `readdir` of the
plugin directory filtered by `isPluginFile`.  With a parent and
`includeParent` the source computes `pluginFiles.concat(await
this.parent.listPlugins())` but discards the result of `concat`, so
the returned list is the local one regardless of the flag. -/
def listPluginsLocal (st : LoaderState) : List String :=
  st.pluginDirFiles.filter (isPluginFile st.fileExtension)

/-- Resolver `resolvePluginFilename` (source lines 395-403).  The cache check is
JS truthiness (`if (this.resolverTable[fileID])`), so a missing key and
an empty cached string both miss.  The `if (!fileID) new
InvalidPluginError(...)` on line 397 constructs an error object without
`throw`, so it has no effect and is not modelled as a failure.  The
first directory entry whose lowercased name contains the lowercased
`fileID` wins and is cached. -/
def resolvePluginFilename (st : LoaderState) (fileID : String) :
    Except PLError (String × LoaderState) :=
  let cached := (jsGet st.resolverTable fileID).getD ""
  if cached != "" then .ok (cached, st)
  else
    match (listPluginsLocal st).find?
        (fun filename => jsIncludes filename fileID) with
    | none => .error (.fileNotFound fileID)
    | some resolvedFilename =>
      .ok (resolvedFilename,
        { st with resolverTable := jsSet st.resolverTable fileID resolvedFilename })

/-- Resolution lifted to a loader (only the loader's own
table and directory are consulted). -/
def Loader.resolveL (l : Loader) (fileID : String) :
    Except PLError String × Loader :=
  match resolvePluginFilename l.st fileID with
  | .error e => (.error e, l)
  | .ok (f, st') => (.ok f, l.withSt st')

/-- Lookup `getLoadedPlugins` (source lines 434-444).  The parent branch calls
`plugins.concat(this.parent.getLoadedPlugins(includeParent))` and
discards the result of `concat` (line 441), so the parent's plugins
never reach the returned list and the result is the local keys for
either flag value. -/
def Loader.getLoadedPlugins (l : Loader) (_includeParent : Bool) :
    List String :=
  jsKeys l.st.loadedPlugins

/-- Lookup `getStartedPlugins` (source lines 451-461); same discarded
`concat` on line 458. -/
def Loader.getStartedPlugins (l : Loader) (_includeParent : Bool) :
    List String :=
  jsKeys l.st.startedPlugins

/-- Listing `listPlugins` on a loader (source lines 384-393): with a parent and
`includeParent` the parent's list is computed but handed to
`Array.concat` whose result is discarded (line 391), so the flag has no
effect on the returned list. -/
def Loader.listPlugins (l : Loader) (_includeParent : Bool) : List String :=
  listPluginsLocal l.st

/-- Lookup `isPluginLoaded` (source lines 445-449): truthiness of
`find(name => name.toLowerCase().includes(fileID.toLowerCase()))` over
`getLoadedPlugins` — a case-insensitive substring match, not key
equality. -/
def Loader.isPluginLoaded (l : Loader) (fileID : String)
    (includeParent : Bool) : Bool :=
  ((l.getLoadedPlugins includeParent).find?
      (fun pluginName => jsIncludes pluginName fileID)).getD "" != ""

/-- Lookup `isPluginStarted` (source lines 462-466). -/
def Loader.isPluginStarted (l : Loader) (fileID : String)
    (includeParent : Bool) : Bool :=
  ((l.getStartedPlugins includeParent).find?
      (fun pluginName => jsIncludes pluginName fileID)).getD "" != ""

/-- The `try { decache(...); import(...) }` tail of `getPlugin` (source
lines 415-426): a fresh import of the resolved file.  `none` in
`diskImport` stands for an import that throws or yields no usable
default export with a `__meta` block, which the `catch` turns into
`InvalidPluginError`. -/
def freshImport (st : LoaderState) (resolved : String) :
    Except PLError Plugin :=
  match jsGet st.diskImport resolved with
  | some plugin => .ok plugin
  | none => .error (.invalidPlugin resolved)

/-- Lookup `getPlugin` (source lines 405-427): resolve locally, return the
locally loaded instance on a hit, otherwise consult the parent when
present and `includeParent` is set (a thrown parent error propagates:
the parent call is outside the `try` block), otherwise import the file
from the local plugin directory. -/
def Loader.getPlugin : Loader → String → Bool →
    Except PLError Plugin × Loader
  | .root st, fileID, _ =>
    match resolvePluginFilename st fileID with
    | .error e => (.error e, .root st)
    | .ok (resolved, st1) =>
      match jsGet st1.loadedPlugins resolved with
      | some plugin => (.ok plugin, .root st1)
      | none => (freshImport st1 resolved, .root st1)
  | .child st parent, fileID, includeParent =>
    match resolvePluginFilename st fileID with
    | .error e => (.error e, .child st parent)
    | .ok (resolved, st1) =>
      match jsGet st1.loadedPlugins resolved with
      | some plugin => (.ok plugin, .child st1 parent)
      | none =>
        if includeParent then
          match Loader.getPlugin parent resolved includeParent with
          | (.ok plugin, parent') => (.ok plugin, .child st1 parent')
          | (.error e, parent') => (.error e, .child st1 parent')
        else (freshImport st1 resolved, .child st1 parent)

/-- Lookup `getPluginInfo` (source lines 429-432). -/
def Loader.getPluginInfo (l : Loader) (fileID : String)
    (includeParent : Bool) : Except PLError MetaInformation × Loader :=
  match l.getPlugin fileID includeParent with
  | (.ok plugin, l') => (.ok plugin.meta, l')
  | (.error e, l') => (.error e, l')

/-! ### Dependency satisfaction (source lines 477-515) -/

/-- The `for (const dependencyName in pluginDependencies)` loop of
`allDependenciesSatisfied`: each dependency is normalized, its info
fetched (consulting the parent), its version checked, and its current
state compared to the required state; an unmet state makes the whole
check return `false`, a thrown error is swallowed only for optional
dependencies. -/
def depsLoop (ext : Ext) (fileID : String) :
    Loader → List (String × DepVal) → Except PLError Bool × Loader
  | l, [] => (.ok true, l)
  | l, (dependencyName, dep) :: rest =>
    let depState := dep.effState
    match l.getPluginInfo dependencyName true with
    | (.error e, l1) =>
      if dep.optionalB then depsLoop ext fileID l1 rest else (.error e, l1)
    | (.ok depInfo, l1) =>
      if !(ext.semverSatisfies depInfo.version dep.versionS) then
        -- `MissingDependencyError` is thrown inside the `try`, so the
        -- same `catch` applies to it.
        if dep.optionalB then depsLoop ext fileID l1 rest
        else (.error (.missingDependency fileID dependencyName), l1)
      else if depState = .started then
        if !(l1.isPluginStarted dependencyName true) then (.ok false, l1)
        else depsLoop ext fileID l1 rest
      else
        if !(l1.isPluginLoaded dependencyName true) then (.ok false, l1)
        else depsLoop ext fileID l1 rest

/-- Check `allDependenciesSatisfied` (source lines 477-515).  With
`pluginInfo = none` the info is fetched via `getPluginInfo(fileID)`
(parent included); in this model `getPluginInfo` never returns a null
info, so the `if (!pluginInfo) return false` guard is not reachable.
An unsatisfied loader API version throws `ApiVersionMismatchError`
(`semver.satisfies(this.apiVersion, pluginInfo.apiVersion)`). -/
def Loader.allDependenciesSatisfied (ext : Ext) (l : Loader)
    (fileID : String) (pluginInfo : Option MetaInformation) :
    Except PLError Bool × Loader :=
  match (match pluginInfo with
         | some m => ((Except.ok m : Except PLError MetaInformation), l)
         | none => l.getPluginInfo fileID true) with
  | (.error e, l1) => (.error e, l1)
  | (.ok info, l1) =>
    if !(ext.semverSatisfies l1.st.apiVersion info.apiVersion) then
      (.error (.apiVersionMismatch fileID l1.st.apiVersion info.apiVersion), l1)
    else depsLoop ext fileID l1 info.pluginDependencies

/-! ### Lifecycle operations (source lines 517-620) -/

/-- The dependency-edge registration loop of `loadPlugin` (source lines
535-538): for each declared dependency, ensure a tree entry for the raw
dependency name and record `resolved`'s required state under it. -/
def registerDeps (tree : List (String × List (String × EffState)))
    (resolved : String) (deps : List (String × DepVal)) :
    List (String × List (String × EffState)) :=
  deps.foldl
    (fun acc e =>
      let entry := (jsGet acc e.1).getD []
      jsSet acc e.1 (jsSet entry resolved e.2.storedState))
    tree

/-- The part of `loadPlugin` after the suspension point (source lines
532-560), also run directly when the dependency check passes: import
the module, register its dependency edges, provision third-party
dependencies (`injectDependencies`, external, failures logged), create
the per-plugin storage (external), invoke the `load` hook if present
(external), insert into `loadedPlugins`, and defer the `pluginLoaded`
emission together with the optional follow-up `startPlugin`. -/
def loadContinuation (l : Loader) (resolved : String)
    (targetState : Option ReqState) : OpResult :=
  match l.getPlugin resolved false with
  | (.error e, l1) => ⟨.error e, l1, []⟩
  | (.ok plugin, l1) =>
    let pluginInfo := plugin.meta
    let tree := registerDeps l1.st.dependencyTree resolved
      pluginInfo.pluginDependencies
    let l2 := l1.withSt
      { l1.st with
        dependencyTree := tree
        loadedPlugins := jsSet l1.st.loadedPlugins resolved plugin }
    ⟨.ok .done, l2,
      [.emitLoaded resolved pluginInfo (targetState == some .started)]⟩

/-- Operation `loadPlugin` (source lines 517-560): resolve, reject an
already-loaded plugin, check dependency satisfaction (errors
propagate); when unmet, push a `{plugin: fileID, callback}` entry onto
`loadingQueue` and suspend on the callback's promise; when met,
continue with `loadContinuation`. -/
def Loader.loadPlugin (ext : Ext) (l : Loader) (fileID : String)
    (targetState : Option ReqState) : OpResult :=
  match l.resolveL fileID with
  | (.error e, l0) => ⟨.error e, l0, []⟩
  | (.ok resolved, l1) =>
    if l1.isPluginLoaded resolved true then
      ⟨.error (.alreadyLoaded resolved), l1, []⟩
    else
      match l1.allDependenciesSatisfied ext resolved none with
      | (.error e, l2) => ⟨.error e, l2, []⟩
      | (.ok sat, l2) =>
        if !sat then
          ⟨.ok .suspended,
            l2.withSt
              { l2.st with
                loadingQueue :=
                  l2.st.loadingQueue
                    ++ [⟨fileID, resolved, targetState, false⟩] },
            []⟩
        else loadContinuation l2 resolved targetState

/-- Operation `unloadPlugin` (source lines 562-580). -/
def Loader.unloadPlugin (l : Loader) (fileID : String) : OpResult :=
  match l.resolveL fileID with
  | (.error e, l0) => ⟨.error e, l0, []⟩
  | (.ok resolved, l1) =>
    if !(l1.isPluginLoaded resolved false) then
      ⟨.error (.notLoaded resolved), l1, []⟩
    else if l1.isPluginStarted resolved false then
      ⟨.error (.stillStarted resolved), l1, []⟩
    else
      match l1.getPlugin resolved false with
      | (.error e, l2) => ⟨.error e, l2, []⟩
      | (.ok plugin, l2) =>
        -- `unload` hook invoked when present (external effect)
        let l3 := l2.withSt
          { l2.st with
            loadedPlugins := jsDelete l2.st.loadedPlugins resolved }
        ⟨.ok .done, l3, [.emitUnloaded resolved plugin.meta]⟩

/-- Operation `startPlugin` (source lines 582-600). -/
def Loader.startPlugin (l : Loader) (fileID : String) : OpResult :=
  match l.resolveL fileID with
  | (.error e, l0) => ⟨.error e, l0, []⟩
  | (.ok resolved, l1) =>
    if !(l1.isPluginLoaded resolved false) then
      ⟨.error (.notLoaded resolved), l1, []⟩
    else if l1.isPluginStarted resolved false then
      ⟨.error (.alreadyStarted resolved), l1, []⟩
    else
      match l1.getPlugin resolved false with
      | (.error e, l2) => ⟨.error e, l2, []⟩
      | (.ok plugin, l2) =>
        -- `start` hook invoked when present (external effect)
        let l3 := l2.withSt
          { l2.st with
            startedPlugins := jsSet l2.st.startedPlugins resolved plugin }
        ⟨.ok .done, l3, [.emitStarted resolved plugin.meta]⟩

/-- Operation `stopPlugin` (source lines 602-620). -/
def Loader.stopPlugin (l : Loader) (fileID : String) : OpResult :=
  match l.resolveL fileID with
  | (.error e, l0) => ⟨.error e, l0, []⟩
  | (.ok resolved, l1) =>
    if !(l1.isPluginLoaded resolved false) then
      ⟨.error (.notLoaded resolved), l1, []⟩
    else if !(l1.isPluginStarted resolved false) then
      ⟨.error (.notStarted resolved), l1, []⟩
    else
      match l1.getPlugin resolved false with
      | (.error e, l2) => ⟨.error e, l2, []⟩
      | (.ok plugin, l2) =>
        -- `stop` hook invoked when present (external effect)
        let l3 := l2.withSt
          { l2.st with
            startedPlugins := jsDelete l2.st.startedPlugins resolved }
        ⟨.ok .done, l3, [.emitStopped resolved plugin.meta]⟩

/-- The `stop` member of the `PM2API` management surface handed to
plugins (source lines 238-241): after logging `Plugin requests stopping
of ...` it returns `this.loadPlugin(fileID)`. -/
def pm2apiStop (ext : Ext) (l : Loader) (fileID : String) : OpResult :=
  Loader.loadPlugin ext l fileID none

/-! ### Event listeners and the event loop (source lines 281-314) -/

/-- One dependent's branch of the cascade handler's `Promise.all` map
(source lines 294-306): fetch the dependent's info (`includeParent =
false`), skip it entirely under `stayLoadedOnDependencyLoss`, and when
its recorded state requires action, stop it if started, unload it if
loaded, and fire-and-forget a reload targeting its previous state (the
returned promise of that `loadPlugin` is not awaited, so its error or
suspension does not affect the handler). -/
def processDependent (ext : Ext) (l : Loader) (isUnloaded : Bool)
    (dependant : String) (state : EffState) :
    Option PLError × Loader × List PLTask :=
  match l.getPluginInfo dependant false with
  | (.error e, l1) => (some e, l1, [])
  | (.ok pInfo, l1) =>
    if pInfo.stayLoadedOnDependencyLoss then (none, l1, [])
    else
      let wasLoaded := l1.isPluginLoaded dependant false
      let wasStarted := l1.isPluginStarted dependant false
      if state = .started || (state = .loaded && isUnloaded) then
        let stopStep : Option PLError × Loader × List PLTask :=
          if wasStarted then
            let r := l1.stopPlugin dependant
            match r.res with
            | .error e => (some e, r.loader, r.tasks)
            | .ok _ => (none, r.loader, r.tasks)
          else (none, l1, [])
        match stopStep with
        | (some e, l2, ts) => (some e, l2, ts)
        | (none, l2, ts) =>
          let unloadStep : Option PLError × Loader × List PLTask :=
            if wasLoaded then
              let r := l2.unloadPlugin dependant
              match r.res with
              | .error e => (some e, r.loader, r.tasks)
              | .ok _ => (none, r.loader, r.tasks)
            else (none, l2, [])
          match unloadStep with
          | (some e, l3, ts') => (some e, l3, ts ++ ts')
          | (none, l3, ts') =>
            let r := Loader.loadPlugin ext l3 dependant
              (some (if wasStarted then .started else .loaded))
            (none, r.loader, ts ++ ts' ++ r.tasks)
      else (none, l1, [])

/-- The dependents of the stopped/unloaded plugin, processed in entry
order (the source fans them out with `Promise.all`; execution is
single-threaded, so their effects are linearized).  The first error
makes the awaited `Promise.all` reject. -/
def processDependents (ext : Ext) :
    Loader → Bool → List (String × EffState) →
    Option PLError × Loader × List PLTask
  | l, _, [] => (none, l, [])
  | l, isUnloaded, (dependant, state) :: rest =>
    match processDependent ext l isUnloaded dependant state with
    | (some e, l1, ts) => (some e, l1, ts)
    | (none, l1, ts) =>
      match processDependents ext l1 isUnloaded rest with
      | (err, l2, ts') => (err, l2, ts ++ ts')

/-- The shared `stoppedListener`/`unloadedListener` (source lines
291-309).  `isUnloaded` is computed up front from `isPluginLoaded`
(default `includeParent = true`).  `Object.entries(depTree[filename])`
on a filename without a dependency-tree entry applies
`Object.entries` to `undefined` and throws a `TypeError`; the handler's
promise rejects and the conditional deletion of the tree entry is never
reached.  On a full unload with no error the entry is deleted. -/
def cascadeHandler (ext : Ext) (l : Loader) (filename : String) :
    Option PLError × Loader × List PLTask :=
  let isUnloaded := !(l.isPluginLoaded filename true)
  match jsGet l.st.dependencyTree filename with
  | none => (some .jsTypeError, l, [])
  | some entries =>
    match processDependents ext l isUnloaded entries with
    | (some e, l1, ts) => (some e, l1, ts)
    | (none, l1, ts) =>
      let l2 :=
        if isUnloaded then
          l1.withSt
            { l1.st with
              dependencyTree := jsDelete l1.st.dependencyTree filename }
        else l1
      (none, l2, ts)

/-- The shared `loadedListener`/`startedListener` (source lines
281-290): every queue entry's satisfaction check is re-run (errors are
logged and skipped); a passing entry's `callback()` is invoked, which
resolves its one-shot promise — scheduling the suspended continuation
if it had not fired before — but the entry itself is never removed
from the queue. -/
def runQueueCheck (ext : Ext) :
    Loader → List QueueEntry → Loader × List QueueEntry × List PLTask
  | l, [] => (l, [], [])
  | l, entry :: rest =>
    match l.allDependenciesSatisfied ext entry.plugin none with
    | (.error _, l1) =>
      match runQueueCheck ext l1 rest with
      | (l2, q, ts) => (l2, entry :: q, ts)
    | (.ok true, l1) =>
      let newTasks : List PLTask :=
        if entry.fired then []
        else [.resume entry.resolved entry.targetState]
      match runQueueCheck ext l1 rest with
      | (l2, q, ts) => (l2, { entry with fired := true } :: q, newTasks ++ ts)
    | (.ok false, l1) =>
      match runQueueCheck ext l1 rest with
      | (l2, q, ts) => (l2, entry :: q, ts)

/-- The event-loop state: a loader plus its pending deferred tasks. -/
structure Sys where
  loader : Loader
  tasks : List PLTask

/-- Process the next deferred task.  `pluginLoaded`/`pluginStarted`
emissions run the queue listener (and, for a load that targeted
`started`, the fire-and-forget `startPlugin` of the same `setTimeout`
callback; its rejection would be unhandled).  `pluginStopped`/
`pluginUnloaded` emissions run the cascade handler, whose rejection is
likewise unhandled.  A `resume` task runs the suspended load's
continuation (fire-and-forget from the cascade handler's view). -/
def processTask (ext : Ext) (sys : Sys) : Sys :=
  match sys.tasks with
  | [] => sys
  | t :: rest =>
    match t with
    | .emitLoaded resolved _ startAfter =>
      match runQueueCheck ext sys.loader sys.loader.st.loadingQueue with
      | (l1, q, ts) =>
        let l2 := l1.withSt { l1.st with loadingQueue := q }
        if startAfter then
          let r := l2.startPlugin resolved
          ⟨r.loader, rest ++ ts ++ r.tasks⟩
        else ⟨l2, rest ++ ts⟩
    | .emitStarted _ _ =>
      match runQueueCheck ext sys.loader sys.loader.st.loadingQueue with
      | (l1, q, ts) =>
        ⟨l1.withSt { l1.st with loadingQueue := q }, rest ++ ts⟩
    | .emitStopped filename _ =>
      match cascadeHandler ext sys.loader filename with
      | (_, l1, ts) => ⟨l1, rest ++ ts⟩
    | .emitUnloaded filename _ =>
      match cascadeHandler ext sys.loader filename with
      | (_, l1, ts) => ⟨l1, rest ++ ts⟩
    | .resume resolved targetState =>
      let r := loadContinuation sys.loader resolved targetState
      ⟨r.loader, rest ++ r.tasks⟩

/-- Run the event loop for at most `fuel` task steps. -/
def runTasks (ext : Ext) : Nat → Sys → Sys
  | 0, sys => sys
  | fuel + 1, sys =>
    match sys.tasks with
    | [] => sys
    | _ => runTasks ext fuel (processTask ext sys)

/-- Forget every resolver cache in a loader chain (used to state that
an operation mutates nothing but the caches). -/
def stripResolver : Loader → Loader
  | .root st => .root { st with resolverTable := [] }
  | .child st p => .child { st with resolverTable := [] } (stripResolver p)

/-- Project a resolver success to the resolved name (used to state
counterexamples without spelling out the updated cache). -/
def resolvedNameOf (st : LoaderState) (fileID : String) : Option String :=
  match resolvePluginFilename st fileID with
  | .ok p => some p.1
  | .error _ => none

/-! ### Concrete fixtures used by the claim theorems -/

/-- An external `semver.satisfies` that accepts everything. -/
def extT : Ext := ⟨fun _ _ => true⟩

/-- An external `semver.satisfies` that rejects everything. -/
def extF : Ext := ⟨fun _ _ => false⟩

def mkMeta (name : String) (deps : List (String × DepVal)) (stay : Bool) :
    MetaInformation :=
  ⟨name, "1.0.0", "", "", "*", [], deps, stay⟩

def pA0 : Plugin := ⟨mkMeta "a" [] false, true, true, true, true⟩

def pXA : Plugin := ⟨mkMeta "xa" [] false, true, true, true, true⟩

/-- A fresh loader over a directory holding `a.p.js` and `xa.p.js`
(note `xa.p.js` contains `a.p.js` as a substring). -/
def st34 : LoaderState :=
  { apiVersion := "1.0.0"
    fileExtension := ".p"
    pluginDirFiles := ["a.p.js", "xa.p.js"]
    diskImport := [("a.p.js", pA0), ("xa.p.js", pXA)]
    loadedPlugins := []
    startedPlugins := []
    dependencyTree := []
    resolverTable := []
    loadingQueue := [] }

/-- The loader reached from `st34` by a completed `loadPlugin` of
`xa.p.js`. -/
def l34a : Loader := (Loader.loadPlugin extT (.root st34) "xa.p.js" none).loader

/-- The B plugin of the cascade scenario: no dependencies. -/
def c1PB : Plugin := ⟨mkMeta "b" [] false, true, true, true, true⟩

/-- The A plugin of the cascade scenario: depends on `b.p.js` with
required state `S`; `retention` is its `stayLoadedOnDependencyLoss`. -/
def c1PA (S : ReqState) (retention : Bool) : Plugin :=
  ⟨mkMeta "a" [("b.p.js", .plain S)] retention, true, true, true, true⟩

/-- Cascade scenario: A is loaded (and started when `wasStarted`), its
dependency edge on B is recorded with required state `S`, and the event
for B's stop (or, with `evUnload`, full unload) is pending. -/
def c1Sys0 (S : ReqState) (wasStarted retention evUnload : Bool) : Sys :=
  { loader := .root
      { apiVersion := "1.0.0"
        fileExtension := ".p"
        pluginDirFiles := ["a.p.js", "b.p.js"]
        diskImport := [("a.p.js", c1PA S retention), ("b.p.js", c1PB)]
        loadedPlugins :=
          ("a.p.js", c1PA S retention) ::
            (if evUnload then [] else [("b.p.js", c1PB)])
        startedPlugins :=
          if wasStarted then [("a.p.js", c1PA S retention)] else []
        dependencyTree := [("b.p.js", [("a.p.js", S.toEff)])]
        resolverTable := []
        loadingQueue := [] }
    tasks :=
      [if evUnload then .emitUnloaded "b.p.js" c1PB.meta
       else .emitStopped "b.p.js" c1PB.meta] }

/-- The cascade scenario after the pending event (and everything it
schedules) has been processed. -/
def c1Phase1 (S : ReqState) (wasStarted retention evUnload : Bool) : Sys :=
  runTasks extT 8 (c1Sys0 S wasStarted retention evUnload)

/-- Restoration, first half: when B was fully unloaded, load it again
and drain the event loop. -/
def c1AfterLoadB (S : ReqState) (wasStarted retention evUnload : Bool) : Sys :=
  let s1 := c1Phase1 S wasStarted retention evUnload
  if evUnload then
    let r := Loader.loadPlugin extT s1.loader "b.p.js" none
    runTasks extT 8 ⟨r.loader, s1.tasks ++ r.tasks⟩
  else s1

/-- Restoration, second half: when A requires B started, start B again
and drain the event loop. -/
def c1Final (S : ReqState) (wasStarted retention evUnload : Bool) : Sys :=
  let s2 := c1AfterLoadB S wasStarted retention evUnload
  if S = ReqState.started then
    let r := Loader.startPlugin s2.loader "b.p.js"
    runTasks extT 8 ⟨r.loader, s2.tasks ++ r.tasks⟩
  else s2

/-- The A plugin of the suspension-queue scenario: requires `b.p.js`
loaded. -/
def c2PA : Plugin :=
  ⟨mkMeta "a" [("b.p.js", .plain .loaded)] false, true, true, true, true⟩

/-- Suspension-queue scenario: a load of `a.p.js` is suspended in the
queue, B has just been loaded, and B's `pluginLoaded` emission is
pending, so the queue entry's satisfaction check now passes. -/
def c2Sys : Sys :=
  { loader := .root
      { apiVersion := "1.0.0"
        fileExtension := ".p"
        pluginDirFiles := ["a.p.js", "b.p.js"]
        diskImport := [("a.p.js", c2PA), ("b.p.js", c1PB)]
        loadedPlugins := [("b.p.js", c1PB)]
        startedPlugins := []
        dependencyTree := []
        resolverTable := []
        loadingQueue := [⟨"a.p.js", "a.p.js", none, false⟩]
        }
    tasks := [.emitLoaded "b.p.js" c1PB.meta false] }

/-- The instance of B loaded in the parent scope. -/
def c6PBp : Plugin :=
  ⟨⟨"b", "1.0.0", "parent instance", "", "*", [], [], false⟩,
    true, true, true, true⟩

/-- The instance of B a fresh local import would produce. -/
def c6PBd : Plugin :=
  ⟨⟨"b", "1.0.0", "fresh import", "", "*", [], [], false⟩,
    true, true, true, true⟩

/-- Parent scope's state, with B loaded. -/
def c6ParentSt : LoaderState :=
  { apiVersion := "1.0.0"
    fileExtension := ".p"
    pluginDirFiles := ["b.p.js"]
    diskImport := [("b.p.js", c6PBd)]
    loadedPlugins := [("b.p.js", c6PBp)]
    startedPlugins := []
    dependencyTree := []
    resolverTable := []
    loadingQueue := [] }

/-- Parent scope with B loaded. -/
def c6Parent : Loader := .root c6ParentSt

/-- Parent scope after its resolver has seen `b.p.js`. -/
def c6Parent1 : Loader :=
  .root { c6ParentSt with resolverTable := [("b.p.js", "b.p.js")] }

/-- Child scope's state: same plugin directory, nothing loaded
locally. -/
def c6ChildSt : LoaderState :=
  { apiVersion := "1.0.0"
    fileExtension := ".p"
    pluginDirFiles := ["b.p.js"]
    diskImport := [("b.p.js", c6PBd)]
    loadedPlugins := []
    startedPlugins := []
    dependencyTree := []
    resolverTable := []
    loadingQueue := [] }

/-- Child scope chained to the parent. -/
def c6Child : Loader := .child c6ChildSt c6Parent

/-- Child scope's state after its resolver has seen the identifier
`b`. -/
def c6ChildSt1 : LoaderState :=
  { c6ChildSt with resolverTable := [("b", "b.p.js")] }

/-- A loader with `a.p.js` loaded and started (management-surface
scenario). -/
def c7L : Loader := .root
  { apiVersion := "1.0.0"
    fileExtension := ".p"
    pluginDirFiles := ["a.p.js"]
    diskImport := [("a.p.js", pA0)]
    loadedPlugins := [("a.p.js", pA0)]
    startedPlugins := [("a.p.js", pA0)]
    dependencyTree := []
    resolverTable := []
    loadingQueue := [] }

/-- A loader with `a.p.js` loaded, nothing started (guard-witness
scenario). -/
def c4WSt : LoaderState :=
  { apiVersion := "1.0.0"
    fileExtension := ".p"
    pluginDirFiles := ["a.p.js"]
    diskImport := [("a.p.js", pA0)]
    loadedPlugins := [("a.p.js", pA0)]
    startedPlugins := []
    dependencyTree := []
    resolverTable := []
    loadingQueue := [] }

/-- Same loader state after its resolver has seen `a.p.js`. -/
def c4WSt1 : LoaderState :=
  { c4WSt with resolverTable := [("a.p.js", "a.p.js")] }

/-- A fresh loader over a one-plugin directory (API-version scenario,
used with the all-rejecting `semver.satisfies`). -/
def c5St : LoaderState :=
  { apiVersion := "1.0.0"
    fileExtension := ".p"
    pluginDirFiles := ["a.p.js"]
    diskImport := [("a.p.js", pA0)]
    loadedPlugins := []
    startedPlugins := []
    dependencyTree := []
    resolverTable := []
    loadingQueue := [] }

/-- The same state after its resolver has seen `a.p.js`. -/
def c5St1 : LoaderState :=
  { c5St with resolverTable := [("a.p.js", "a.p.js")] }

/-- A loader with an empty dependency tree (missing-entry scenario). -/
def c9L : Loader := .root
  { apiVersion := "1.0.0"
    fileExtension := ".p"
    pluginDirFiles := ["a.p.js"]
    diskImport := [("a.p.js", pA0)]
    loadedPlugins := [("a.p.js", pA0)]
    startedPlugins := []
    dependencyTree := []
    resolverTable := []
    loadingQueue := [] }

deriving instance DecidableEq for Except

/-! ### Helper lemmas -/

theorem jsGet_jsSet_self {α : Type} (m : List (String × α)) (k : String)
    (v : α) : jsGet (jsSet m k v) k = some v := by
  induction m with
  | nil => simp [jsSet, jsGet]
  | cons e rest ih =>
    by_cases h : e.1 = k
    · simp [jsSet, jsGet, h]
    · simp only [jsSet, jsGet]
      rw [if_neg (by simp [h]), jsGet]
      rw [if_neg (by simp [h])]
      exact ih

theorem jsGet_jsSet_ne {α : Type} (m : List (String × α)) (k k' : String)
    (v : α) (h : k' ≠ k) : jsGet (jsSet m k' v) k = jsGet m k := by
  induction m with
  | nil => simp [jsSet, jsGet, h]
  | cons e rest ih =>
    by_cases he : e.1 = k'
    · simp [jsSet, jsGet, he, h]
    · simp only [jsSet, jsGet]
      rw [if_neg (by simp [he])]
      by_cases hk : e.1 = k
      · simp [jsGet, hk]
      · simp [jsGet, hk, ih]

theorem isPrefixOf_self (l : List Char) : l.isPrefixOf l = true := by
  induction l with
  | nil => rfl
  | cons c t ih => simp [List.isPrefixOf, ih]

theorem jsIncludes_refl (s : String) : jsIncludes s s = true := by
  unfold jsIncludes
  cases h : lcs s with
  | nil => simp [charListIncludes, h, List.isEmpty]
  | cons c t => simp [charListIncludes, ← h, isPrefixOf_self]

theorem lcs_eq_nil_iff (s : String) : lcs s = [] ↔ s = "" := by
  constructor
  · intro h
    have hd : s.data = [] := List.map_eq_nil_iff.mp h
    cases s with
    | mk data => exact congrArg String.mk hd
  · intro h; subst h; rfl

theorem jsIncludes_empty_hay (f : String) (h : f ≠ "") :
    jsIncludes "" f = false := by
  unfold jsIncludes
  have h0 : lcs "" = [] := rfl
  rw [h0, charListIncludes]
  cases hf : lcs f with
  | nil => exact absurd ((lcs_eq_nil_iff f).mp hf) h
  | cons c t => rfl

theorem jsIncludes_empty_needle (h : String) : jsIncludes h "" = true := by
  unfold jsIncludes
  have h0 : lcs "" = [] := rfl
  rw [h0]
  cases hh : lcs h with
  | nil => rfl
  | cons c t => simp [charListIncludes, List.isPrefixOf]

theorem memberCheck_eq {α : Type} (m : List (String × α)) (f : String)
    (hne : f ≠ "")
    (hal : ∀ k ∈ jsKeys m, jsIncludes k f = true → k = f) :
    ((((jsKeys m).find? (fun n => jsIncludes n f)).getD "") != "")
      = (jsGet m f).isSome := by
  induction m with
  | nil => simp [jsKeys, jsGet, List.find?]
  | cons e rest ih =>
    have hkeys : jsKeys (e :: rest) = e.1 :: jsKeys rest := rfl
    rw [hkeys]
    by_cases hinc : jsIncludes e.1 f = true
    · have he1 : e.1 = f := hal e.1 (by simp [hkeys]) hinc
      rw [List.find?]
      simp only [hinc]
      subst he1
      simp [jsGet, bne_iff_ne, hne]
    · have hne1 : e.1 ≠ f := by
        intro h
        rw [h] at hinc
        exact hinc (jsIncludes_refl f)
      rw [List.find?]
      simp only [Bool.not_eq_true] at hinc
      simp only [hinc]
      rw [jsGet, if_neg (by simp [hne1])]
      exact ih (fun k hk h => hal k (by simp [hkeys, hk]) h)

theorem get_some_mem_keys {α : Type} (m : List (String × α)) (f : String)
    (h : (jsGet m f).isSome) : f ∈ jsKeys m := by
  induction m with
  | nil => simp [jsGet] at h
  | cons e rest ih =>
    rw [jsGet] at h
    by_cases he : e.1 = f
    · simp [jsKeys, he]
    · rw [if_neg (by simp [he])] at h
      simp [jsKeys] at ih ⊢
      exact Or.inr (by simpa [jsKeys] using ih h)

theorem memberCheck_true_of_get_some {α : Type} (m : List (String × α))
    (f : String) (hne : f ≠ "") (h : (jsGet m f).isSome) :
    ((((jsKeys m).find? (fun n => jsIncludes n f)).getD "") != "")
      = true := by
  have hmem : f ∈ jsKeys m := get_some_mem_keys m f h
  have hex : ((jsKeys m).find? (fun n => jsIncludes n f)).isSome := by
    rw [List.find?_isSome]
    exact ⟨f, hmem, jsIncludes_refl f⟩
  obtain ⟨k0, hk0⟩ := Option.isSome_iff_exists.mp hex
  have hpred : jsIncludes k0 f = true := by
    have h2 := List.find?_some hk0
    simpa using h2
  have hk0ne : k0 ≠ "" := by
    intro hk
    rw [hk] at hpred
    rw [jsIncludes_empty_hay f hne] at hpred
    exact Bool.false_ne_true hpred
  rw [hk0]
  simp [bne_iff_ne, hk0ne]

theorem resolve_ok_shape (st : LoaderState) (fileID f : String)
    (st' : LoaderState)
    (h : resolvePluginFilename st fileID = .ok (f, st')) :
    st' = { st with resolverTable := st'.resolverTable } ∧ f ≠ "" ∧
      (jsGet st'.resolverTable fileID).getD "" = f := by
  unfold resolvePluginFilename at h
  by_cases hc : ((jsGet st.resolverTable fileID).getD "") ≠ ""
  · rw [if_pos (by simpa [bne_iff_ne] using hc)] at h
    injection h with h'
    injection h' with h1 h2
    subst h2; subst h1
    exact ⟨rfl, hc, rfl⟩
  · push_neg at hc
    rw [if_neg (by simp [bne_iff_ne, hc])] at h
    cases hfind : (listPluginsLocal st).find?
        (fun fn => jsIncludes fn fileID) with
    | none => rw [hfind] at h; exact absurd h (by simp)
    | some r =>
      rw [hfind] at h
      injection h with h'
      injection h' with h1 h2
      subst h1
      have hmem : r ∈ listPluginsLocal st := List.mem_of_find?_eq_some hfind
      have hpf : isPluginFile st.fileExtension r = true :=
        (List.mem_filter.mp hmem).2
      have hrne : r ≠ "" := by
        intro hr
        rw [hr] at hpf
        have h1 : lcs "" = [] := rfl
        unfold isPluginFile at hpf
        rw [h1] at hpf
        simp [List.isSuffixOf, List.isPrefixOf] at hpf
      subst h2
      refine ⟨rfl, hrne, ?_⟩
      rw [jsGet_jsSet_self]
      rfl

theorem resolve_ok_cases (st : LoaderState) (fileID f : String)
    (st' : LoaderState)
    (h : resolvePluginFilename st fileID = .ok (f, st')) :
    st' = st ∨
      (st'.resolverTable = jsSet st.resolverTable fileID f ∧
        (jsGet st.resolverTable fileID).getD "" = "") := by
  unfold resolvePluginFilename at h
  by_cases hc : ((jsGet st.resolverTable fileID).getD "") ≠ ""
  · rw [if_pos (by simpa [bne_iff_ne] using hc)] at h
    injection h with h'
    injection h' with h1 h2
    exact Or.inl h2.symm
  · push_neg at hc
    rw [if_neg (by simp [bne_iff_ne, hc])] at h
    cases hfind : (listPluginsLocal st).find?
        (fun fn => jsIncludes fn fileID) with
    | none => rw [hfind] at h; exact absurd h (by simp)
    | some r =>
      rw [hfind] at h
      injection h with h'
      injection h' with h1 h2
      subst h1
      exact Or.inr ⟨by rw [← h2], hc⟩

theorem withSt_st (l : Loader) (s : LoaderState) : (l.withSt s).st = s := by
  cases l <;> rfl

theorem resolve_strip (st : LoaderState) (fileID f : String)
    (st' : LoaderState) (h : resolvePluginFilename st fileID = .ok (f, st')) :
    ({ st' with resolverTable := [] } : LoaderState)
      = { st with resolverTable := [] } := by
  obtain ⟨hshape, -, -⟩ := resolve_ok_shape st fileID f st' h
  rw [hshape]

theorem getPlugin_strip (l : Loader) (fileID : String) (ip : Bool) :
    stripResolver (Loader.getPlugin l fileID ip).2 = stripResolver l := by
  induction l generalizing fileID ip with
  | root st =>
    rw [Loader.getPlugin]
    cases hres : resolvePluginFilename st fileID with
    | error e => rfl
    | ok p =>
      obtain ⟨f, st1⟩ := p
      have hs := resolve_strip st fileID f st1 hres
      cases hget : jsGet st1.loadedPlugins f with
      | some plugin => simp [stripResolver, hget, hs]
      | none => simp [stripResolver, hget, hs]
  | child st parent ih =>
    rw [Loader.getPlugin]
    cases hres : resolvePluginFilename st fileID with
    | error e => rfl
    | ok p =>
      obtain ⟨f, st1⟩ := p
      have hs := resolve_strip st fileID f st1 hres
      cases hget : jsGet st1.loadedPlugins f with
      | some plugin => simp [stripResolver, hget, hs]
      | none =>
        by_cases hip : ip = true
        · subst hip
          simp only [if_true]
          cases hpar : Loader.getPlugin parent f true with
          | mk res parent' =>
            have hihp : stripResolver parent' = stripResolver parent := by
              have hi := ih f true
              rw [hpar] at hi
              exact hi
            cases res with
            | ok plugin => simp [stripResolver, hget, hs, hihp]
            | error e => simp [stripResolver, hget, hs, hihp]
        · simp only [Bool.not_eq_true] at hip
          subst hip
          simp [stripResolver, hget, hs]

theorem strip_st (l : Loader) :
    (stripResolver l).st = { l.st with resolverTable := [] } := by
  cases l <;> rfl

theorem strip_eq_st_fields (l l' : Loader)
    (h : stripResolver l' = stripResolver l) :
    ({ l'.st with resolverTable := [] } : LoaderState)
      = { l.st with resolverTable := [] } := by
  have h1 := congrArg Loader.st h
  rw [strip_st, strip_st] at h1
  exact h1

theorem getPluginInfo_strip (l : Loader) (fileID : String) (ip : Bool) :
    stripResolver (Loader.getPluginInfo l fileID ip).2 = stripResolver l := by
  unfold Loader.getPluginInfo
  cases hg : Loader.getPlugin l fileID ip with
  | mk res l' =>
    have hgs := getPlugin_strip l fileID ip
    rw [hg] at hgs
    cases res <;> simpa using hgs

theorem depsLoop_strip (ext : Ext) (fileID : String) (l : Loader)
    (deps : List (String × DepVal)) :
    stripResolver (depsLoop ext fileID l deps).2 = stripResolver l := by
  induction deps generalizing l with
  | nil => rfl
  | cons d rest ih =>
    obtain ⟨name, dv⟩ := d
    rw [depsLoop]
    cases hg : Loader.getPluginInfo l name true with
    | mk res l1 =>
      have hstep : stripResolver l1 = stripResolver l := by
        have hi := getPluginInfo_strip l name true
        rw [hg] at hi
        exact hi
      cases res with
      | error e =>
        by_cases hopt : dv.optionalB = true
        · simp only [hopt, if_true]
          rw [ih l1]
          exact hstep
        · simp only [Bool.not_eq_true] at hopt
          simp [hopt, hstep]
      | ok depInfo =>
        by_cases hver : ext.semverSatisfies depInfo.version dv.versionS = true
        · simp only [hver, Bool.not_true]
          by_cases hst : dv.effState = EffState.started
          · simp only [hst, if_true, if_false, Bool.false_eq_true]
            by_cases hrun : Loader.isPluginStarted l1 name true = true
            · simp only [hrun, Bool.not_true, Bool.false_eq_true, if_false]
              rw [ih l1]; exact hstep
            · simp only [Bool.not_eq_true] at hrun
              simp [hrun, hstep]
          · simp only [hst, if_false]
            by_cases hrun : Loader.isPluginLoaded l1 name true = true
            · simp only [hrun, Bool.not_true, Bool.false_eq_true, if_false]
              rw [ih l1]; exact hstep
            · simp only [Bool.not_eq_true] at hrun
              simp [hrun, hstep]
        · simp only [Bool.not_eq_true] at hver
          by_cases hopt : dv.optionalB = true
          · simp only [hver, hopt]
            simp only [Bool.not_false, if_true]
            rw [ih l1]; exact hstep
          · simp only [Bool.not_eq_true] at hopt
            simp [hver, hopt, hstep]

theorem allDeps_strip (ext : Ext) (l : Loader) (fileID : String)
    (pluginInfo : Option MetaInformation) :
    stripResolver
        (Loader.allDependenciesSatisfied ext l fileID pluginInfo).2
      = stripResolver l := by
  unfold Loader.allDependenciesSatisfied
  cases pluginInfo with
  | some m =>
    simp only
    by_cases hv : ext.semverSatisfies l.st.apiVersion m.apiVersion = true
    · simp only [hv, Bool.not_true, Bool.false_eq_true, if_false]
      exact depsLoop_strip ext fileID l m.pluginDependencies
    · simp only [Bool.not_eq_true] at hv
      simp [hv]
  | none =>
    simp only
    cases hg : Loader.getPluginInfo l fileID true with
    | mk res l1 =>
      have hstep : stripResolver l1 = stripResolver l := by
        have hi := getPluginInfo_strip l fileID true
        rw [hg] at hi
        exact hi
      cases res with
      | error e => simpa using hstep
      | ok info =>
        by_cases hv : ext.semverSatisfies l1.st.apiVersion info.apiVersion
            = true
        · simp only [hv, Bool.not_true, Bool.false_eq_true, if_false]
          rw [depsLoop_strip ext fileID l1 info.pluginDependencies]
          exact hstep
        · simp only [Bool.not_eq_true] at hv
          simp [hv, hstep]

theorem isPluginLoaded_char (l : Loader) (st : LoaderState) (f : String)
    (b : Bool) (hne : f ≠ "")
    (hal : ∀ k ∈ jsKeys st.loadedPlugins, jsIncludes k f = true → k = f) :
    (l.withSt st).isPluginLoaded f b = (jsGet st.loadedPlugins f).isSome := by
  unfold Loader.isPluginLoaded Loader.getLoadedPlugins
  rw [withSt_st]
  exact memberCheck_eq st.loadedPlugins f hne hal

theorem isPluginStarted_char (l : Loader) (st : LoaderState) (f : String)
    (b : Bool) (hne : f ≠ "")
    (hal : ∀ k ∈ jsKeys st.startedPlugins, jsIncludes k f = true → k = f) :
    (l.withSt st).isPluginStarted f b = (jsGet st.startedPlugins f).isSome := by
  unfold Loader.isPluginStarted Loader.getStartedPlugins
  rw [withSt_st]
  exact memberCheck_eq st.startedPlugins f hne hal

theorem isPluginLoaded_false_get_none (l : Loader) (f : String) (b : Bool)
    (hne : f ≠ "") (h : l.isPluginLoaded f b = false) :
    jsGet l.st.loadedPlugins f = none := by
  by_contra hc
  have hs : (jsGet l.st.loadedPlugins f).isSome :=
    Option.ne_none_iff_isSome.mp hc
  have htrue := memberCheck_true_of_get_some l.st.loadedPlugins f hne hs
  unfold Loader.isPluginLoaded Loader.getLoadedPlugins at h
  rw [htrue] at h
  simp at h

theorem stripFields (a b : LoaderState)
    (h : ({ a with resolverTable := [] } : LoaderState)
      = { b with resolverTable := [] }) :
    a.apiVersion = b.apiVersion ∧ a.fileExtension = b.fileExtension ∧
    a.pluginDirFiles = b.pluginDirFiles ∧ a.diskImport = b.diskImport ∧
    a.loadedPlugins = b.loadedPlugins ∧ a.startedPlugins = b.startedPlugins ∧
    a.dependencyTree = b.dependencyTree ∧ a.loadingQueue = b.loadingQueue := by
  cases a
  cases b
  simp only [LoaderState.mk.injEq] at h
  simp_all

/-! ### Claim theorems -/

/-- C1: a dependent A recorded in the dependency graph under its
dependency B with required state S is handled by the cascade listener
of the `pluginStopped`/`pluginUnloaded` event for B as follows.  When
A's meta sets `stayLoadedOnDependencyLoss`, A's loaded and started
membership is unchanged.  Otherwise, when S is `started`, or S is
`loaded` and the event is a full unload, A is stopped if started and
unloaded if loaded, and a load of A targeting its previous state is
re-submitted and suspends on the loading queue; once B reaches the
required state again, A is loaded again and, if it was started before,
started again. -/
theorem C1_cascade_and_resume :
    ∀ (S : ReqState) (wasStarted retention evUnload : Bool),
      (retention = true →
        jsGet
            (c1Phase1 S wasStarted retention evUnload).loader.st.loadedPlugins
            "a.p.js" = some (c1PA S retention) ∧
        jsGet
            (c1Phase1 S wasStarted retention evUnload).loader.st.startedPlugins
            "a.p.js" =
          (if wasStarted then some (c1PA S retention) else none)) ∧
      (retention = false →
        (S = .started ∨ (S = .loaded ∧ evUnload = true)) →
        (jsGet
            (c1Phase1 S wasStarted retention evUnload).loader.st.loadedPlugins
            "a.p.js" = none ∧
         jsGet
            (c1Phase1 S wasStarted retention evUnload).loader.st.startedPlugins
            "a.p.js" = none ∧
         (c1Phase1 S wasStarted retention evUnload).loader.st.loadingQueue =
           [⟨"a.p.js", "a.p.js",
             some (if wasStarted then .started else .loaded), false⟩] ∧
         jsGet
            (c1Final S wasStarted retention evUnload).loader.st.loadedPlugins
            "a.p.js" = some (c1PA S retention) ∧
         jsGet
            (c1Final S wasStarted retention evUnload).loader.st.startedPlugins
            "a.p.js" =
           (if wasStarted then some (c1PA S retention) else none))) := by
  decide

/-- C1 witness: the `S = started`, previously-started, no-retention,
stop-event instance. -/
theorem C1_witness :
    jsGet (c1Phase1 .started true false false).loader.st.loadedPlugins
        "a.p.js" = none ∧
    jsGet (c1Phase1 .started true false false).loader.st.startedPlugins
        "a.p.js" = none ∧
    (c1Phase1 .started true false false).loader.st.loadingQueue =
      [⟨"a.p.js", "a.p.js", some .started, false⟩] ∧
    jsGet (c1Final .started true false false).loader.st.loadedPlugins
        "a.p.js" = some (c1PA .started false) ∧
    jsGet (c1Final .started true false false).loader.st.startedPlugins
        "a.p.js" = some (c1PA .started false) :=
  (C1_cascade_and_resume .started true false false).2 rfl (Or.inl rfl)

/-- C2: evaluating the queue listener at a state with one suspended
entry whose dependency check passes shows that the entry's resume
signal fires (the continuation is scheduled and the entry is marked
resolved) but the entry is NOT removed from `loadingQueue`, and after
the handler the queue still contains an entry whose satisfaction check
passes — the source's `loadingQueue.forEach` never splices the
queue. -/
theorem C2_queue_entry_not_removed :
    (processTask extT c2Sys).loader.st.loadingQueue
      = [⟨"a.p.js", "a.p.js", none, true⟩] ∧
    (processTask extT c2Sys).tasks = [.resume "a.p.js" none] ∧
    (Loader.allDependenciesSatisfied extT (processTask extT c2Sys).loader
        "a.p.js" none).1 = .ok true := by
  refine ⟨?_, ?_, ?_⟩ <;> decide

/-- C3: after the completed operations `loadPlugin "xa.p.js"` then
`startPlugin "a.p.js"` from a fresh loader, the filename `a.p.js` is a
key of the started-plugins map but not of the loaded-plugins map — the
substring-based `isPluginLoaded` guard accepts `a.p.js` because the
distinct loaded filename `xa.p.js` contains it. -/
theorem C3_started_not_subset_loaded :
    (Loader.loadPlugin extT (.root st34) "xa.p.js" none).res = .ok .done ∧
    (Loader.startPlugin l34a "a.p.js").res = .ok .done ∧
    jsGet (Loader.startPlugin l34a "a.p.js").loader.st.startedPlugins
        "a.p.js" = some pA0 ∧
    jsGet (Loader.startPlugin l34a "a.p.js").loader.st.loadedPlugins
        "a.p.js" = none := by
  refine ⟨?_, ?_, ?_, ?_⟩ <;> decide

/-- C4 counterexample: the identifier `a.p.js` resolves to the filename
`a.p.js`, which is not loaded, yet `startPlugin` does not fail with
`PluginNotLoadedError` (it succeeds, because the loaded `xa.p.js`
contains `a.p.js` as a substring). -/
theorem C4_counterexample :
    resolvedNameOf l34a.st "a.p.js" = some "a.p.js" ∧
    jsGet l34a.st.loadedPlugins "a.p.js" = none ∧
    (Loader.startPlugin l34a "a.p.js").res
      ≠ .error (.notLoaded "a.p.js") := by
  refine ⟨?_, ?_, ?_⟩ <;> decide

/-- C4 amended: for an identifier resolving to filename `f`, provided
no tracked filename other than `f` itself contains `f` as a
case-insensitive substring, the guards behave as claimed: `loadPlugin`
fails `AlreadyLoaded` when `f` is loaded; `startPlugin` fails
`NotLoaded` when `f` is not loaded and `AlreadyStarted` when `f` is
loaded and started; `stopPlugin` fails `NotLoaded` when `f` is not
loaded and `NotStarted` when `f` is loaded but not started;
`unloadPlugin` fails `NotLoaded` when `f` is not loaded and
`StillStarted` when `f` is loaded and started. -/
theorem C4_guard_errors_amended (ext : Ext) (l : Loader) (fileID f : String)
    (st1 : LoaderState) (t : Option ReqState)
    (hres : resolvePluginFilename l.st fileID = .ok (f, st1))
    (hL : ∀ k ∈ jsKeys st1.loadedPlugins, jsIncludes k f = true → k = f)
    (hS : ∀ k ∈ jsKeys st1.startedPlugins, jsIncludes k f = true → k = f) :
    (jsGet st1.loadedPlugins f ≠ none →
      (Loader.loadPlugin ext l fileID t).res = .error (.alreadyLoaded f)) ∧
    (jsGet st1.loadedPlugins f = none →
      (Loader.startPlugin l fileID).res = .error (.notLoaded f)) ∧
    (jsGet st1.loadedPlugins f ≠ none → jsGet st1.startedPlugins f ≠ none →
      (Loader.startPlugin l fileID).res = .error (.alreadyStarted f)) ∧
    (jsGet st1.loadedPlugins f = none →
      (Loader.stopPlugin l fileID).res = .error (.notLoaded f)) ∧
    (jsGet st1.loadedPlugins f ≠ none → jsGet st1.startedPlugins f = none →
      (Loader.stopPlugin l fileID).res = .error (.notStarted f)) ∧
    (jsGet st1.loadedPlugins f = none →
      (Loader.unloadPlugin l fileID).res = .error (.notLoaded f)) ∧
    (jsGet st1.loadedPlugins f ≠ none → jsGet st1.startedPlugins f ≠ none →
      (Loader.unloadPlugin l fileID).res = .error (.stillStarted f)) := by
  obtain ⟨hshape, hne, hcache⟩ := resolve_ok_shape l.st fileID f st1 hres
  have hRL : Loader.resolveL l fileID = (.ok f, l.withSt st1) := by
    unfold Loader.resolveL
    rw [hres]
  refine ⟨?_, ?_, ?_, ?_, ?_, ?_, ?_⟩
  · intro hld
    have hld' : (jsGet st1.loadedPlugins f).isSome :=
      Option.ne_none_iff_isSome.mp hld
    unfold Loader.loadPlugin
    rw [hRL]
    simp only [isPluginLoaded_char l st1 f true hne hL, hld', if_true]
  · intro hld
    unfold Loader.startPlugin
    rw [hRL]
    simp only [isPluginLoaded_char l st1 f false hne hL, hld,
      Option.isSome_none, Bool.not_false, if_true]
  · intro hld hst
    have hld' : (jsGet st1.loadedPlugins f).isSome :=
      Option.ne_none_iff_isSome.mp hld
    have hst' : (jsGet st1.startedPlugins f).isSome :=
      Option.ne_none_iff_isSome.mp hst
    unfold Loader.startPlugin
    rw [hRL]
    simp only [isPluginLoaded_char l st1 f false hne hL, hld',
      isPluginStarted_char l st1 f false hne hS, hst',
      Bool.not_true, Bool.false_eq_true, if_false, if_true]
  · intro hld
    unfold Loader.stopPlugin
    rw [hRL]
    simp only [isPluginLoaded_char l st1 f false hne hL, hld,
      Option.isSome_none, Bool.not_false, if_true]
  · intro hld hst
    have hld' : (jsGet st1.loadedPlugins f).isSome :=
      Option.ne_none_iff_isSome.mp hld
    unfold Loader.stopPlugin
    rw [hRL]
    simp only [isPluginLoaded_char l st1 f false hne hL, hld',
      isPluginStarted_char l st1 f false hne hS, hst,
      Option.isSome_none, Bool.not_true, Bool.not_false,
      Bool.false_eq_true, if_false, if_true]
  · intro hld
    unfold Loader.unloadPlugin
    rw [hRL]
    simp only [isPluginLoaded_char l st1 f false hne hL, hld,
      Option.isSome_none, Bool.not_false, if_true]
  · intro hld hst
    have hld' : (jsGet st1.loadedPlugins f).isSome :=
      Option.ne_none_iff_isSome.mp hld
    have hst' : (jsGet st1.startedPlugins f).isSome :=
      Option.ne_none_iff_isSome.mp hst
    unfold Loader.unloadPlugin
    rw [hRL]
    simp only [isPluginLoaded_char l st1 f false hne hL, hld',
      isPluginStarted_char l st1 f false hne hS, hst',
      Bool.not_true, Bool.false_eq_true, if_false, if_true]

/-- C4 witness: on a loader with only `a.p.js` loaded, loading it again
fails `AlreadyLoaded` and stopping it fails `NotStarted`. -/
theorem C4_witness :
    (Loader.loadPlugin extT (.root c4WSt) "a.p.js" none).res
      = .error (.alreadyLoaded "a.p.js") ∧
    (Loader.stopPlugin (.root c4WSt) "a.p.js").res
      = .error (.notStarted "a.p.js") := by
  have h := C4_guard_errors_amended extT (.root c4WSt) "a.p.js" "a.p.js"
    c4WSt1 none (by decide) (by decide) (by decide)
  exact ⟨h.1 (by decide), h.2.2.2.2.1 (by decide) (by decide)⟩

/-- C5: when a plugin resolves to `f`, is not already loaded, its info
is importable, and `semver.satisfies` rejects the loader's API version
against the plugin's declared range, `loadPlugin` fails with the
API-version-mismatch error and leaves the loaded-plugins map, the
started-plugins map, the dependency tree and the loading queue exactly
as they were; in particular `f` is absent from the loaded map. -/
theorem C5_api_mismatch_no_mutation (ext : Ext) (l : Loader)
    (fileID f : String) (st1 : LoaderState) (m : MetaInformation)
    (l2 : Loader) (t : Option ReqState)
    (hres : resolvePluginFilename l.st fileID = .ok (f, st1))
    (hnl : Loader.isPluginLoaded (l.withSt st1) f true = false)
    (hinfo : Loader.getPluginInfo (l.withSt st1) f true = (.ok m, l2))
    (hver : ext.semverSatisfies l.st.apiVersion m.apiVersion = false) :
    (Loader.loadPlugin ext l fileID t).res =
      .error (.apiVersionMismatch f l.st.apiVersion m.apiVersion) ∧
    (Loader.loadPlugin ext l fileID t).loader.st.loadedPlugins
      = l.st.loadedPlugins ∧
    (Loader.loadPlugin ext l fileID t).loader.st.startedPlugins
      = l.st.startedPlugins ∧
    (Loader.loadPlugin ext l fileID t).loader.st.dependencyTree
      = l.st.dependencyTree ∧
    (Loader.loadPlugin ext l fileID t).loader.st.loadingQueue
      = l.st.loadingQueue ∧
    jsGet (Loader.loadPlugin ext l fileID t).loader.st.loadedPlugins f
      = none := by
  obtain ⟨hshape, hne, hcache⟩ := resolve_ok_shape l.st fileID f st1 hres
  have hRL : Loader.resolveL l fileID = (.ok f, l.withSt st1) := by
    unfold Loader.resolveL
    rw [hres]
  have hstrip : stripResolver l2 = stripResolver (l.withSt st1) := by
    have h0 := getPluginInfo_strip (l.withSt st1) f true
    rw [hinfo] at h0
    exact h0
  have hst1 : ({ st1 with resolverTable := [] } : LoaderState)
      = { l.st with resolverTable := [] } := by
    rw [hshape]
  have hl2 : ({ l2.st with resolverTable := [] } : LoaderState)
      = { l.st with resolverTable := [] } := by
    have h1 := strip_eq_st_fields (l.withSt st1) l2 hstrip
    rw [withSt_st] at h1
    rw [h1, hst1]
  obtain ⟨hapi, -, -, -, hldd, hstt, hdep, hq⟩ := stripFields l2.st l.st hl2
  have hgnone : jsGet st1.loadedPlugins f = none := by
    have h1 := isPluginLoaded_false_get_none (l.withSt st1) f true hne
    rw [withSt_st] at h1
    exact h1 hnl
  obtain ⟨-, -, -, -, hldd1, -, -, -⟩ := stripFields st1 l.st hst1
  have hsat : Loader.allDependenciesSatisfied ext (l.withSt st1) f none
      = (.error (.apiVersionMismatch f l.st.apiVersion m.apiVersion), l2) := by
    unfold Loader.allDependenciesSatisfied
    rw [hinfo]
    simp only [hapi, hver, Bool.not_false, if_true]
  have hload : Loader.loadPlugin ext l fileID t =
      ⟨.error (.apiVersionMismatch f l.st.apiVersion m.apiVersion),
        l2, []⟩ := by
    unfold Loader.loadPlugin
    rw [hRL]
    simp only [hnl, Bool.false_eq_true, if_false, hsat]
  rw [hload]
  refine ⟨rfl, hldd, hstt, hdep, hq, ?_⟩
  rw [hldd, ← hldd1]
  exact hgnone

/-- C5 witness: against the all-rejecting `semver.satisfies`, a fresh
load of `a.p.js` fails with the mismatch error and the plugin stays
absent from the loaded map. -/
theorem C5_witness :
    (Loader.loadPlugin extF (.root c5St) "a.p.js" none).res
      = .error (.apiVersionMismatch "a.p.js" "1.0.0" "*") ∧
    jsGet
        (Loader.loadPlugin extF (.root c5St) "a.p.js" none).loader.st.loadedPlugins
        "a.p.js" = none := by
  have h := C5_api_mismatch_no_mutation extF (.root c5St) "a.p.js" "a.p.js"
    c5St1 pA0.meta (.root c5St1) none (by decide) (by decide) (by decide)
    (by decide)
  exact ⟨h.1, h.2.2.2.2.2⟩

/-- C6 counterexample: the parent reports `b.p.js` loaded, yet the
child's `getLoadedPlugins` with `includeParent = true` returns a list
without it; moreover `getPlugin` with `includeParent = false` on a
plugin that is not loaded locally does not fail file-not-found — it
returns a fresh import from the local directory. -/
theorem C6_counterexample :
    Loader.getLoadedPlugins c6Parent true = ["b.p.js"] ∧
    Loader.getLoadedPlugins c6Child true = [] ∧
    jsGet c6Child.st.loadedPlugins "b.p.js" = none ∧
    (Loader.getPlugin c6Child "b" false).1 = .ok c6PBd ∧
    (Loader.getPlugin c6Child "b" false).1
      ≠ .error (.fileNotFound "b") := by
  refine ⟨?_, ?_, ?_, ?_, ?_⟩ <;> decide

/-- C6 amended: `getPlugin` with `includeParent = true` falls through
to the parent on a local miss and returns the parent's instance; with
`includeParent = false` the parent is not consulted (a fresh local
module import is attempted instead); the list lookups `getLoadedPlugins`,
`getStartedPlugins` and `listPlugins` return only the local scope's
results for either flag value, because the source discards the result
of `Array.concat` with the parent's list. -/
theorem C6_scope_lookup_amended (stC : LoaderState) (p : Loader)
    (fileID f : String) (stC1 : LoaderState) (inst : Plugin) (p' : Loader)
    (hres : resolvePluginFilename stC fileID = .ok (f, stC1))
    (hlocal : jsGet stC1.loadedPlugins f = none)
    (hpar : Loader.getPlugin p f true = (.ok inst, p')) :
    Loader.getPlugin (.child stC p) fileID true = (.ok inst, .child stC1 p') ∧
    Loader.getPlugin (.child stC p) fileID false
      = (freshImport stC1 f, .child stC1 p) ∧
    (Loader.child stC p).getLoadedPlugins true = jsKeys stC.loadedPlugins ∧
    (Loader.child stC p).getStartedPlugins true
      = jsKeys stC.startedPlugins ∧
    (Loader.child stC p).listPlugins true = listPluginsLocal stC := by
  refine ⟨?_, ?_, rfl, rfl, rfl⟩
  · rw [Loader.getPlugin]
    rw [hres]
    simp only [hlocal, if_true, hpar]
  · rw [Loader.getPlugin]
    rw [hres]
    simp only [hlocal]
    rfl

/-- C6 witness: in the concrete parent/child scenario, `getPlugin "b"`
with `includeParent = true` returns the parent's instance, and the
child's `getLoadedPlugins` stays local. -/
theorem C6_witness :
    Loader.getPlugin c6Child "b" true
      = (.ok c6PBp, .child c6ChildSt1 c6Parent1) ∧
    Loader.getLoadedPlugins c6Child true = jsKeys c6ChildSt.loadedPlugins := by
  have h := C6_scope_lookup_amended c6ChildSt c6Parent "b" "b.p.js"
    c6ChildSt1 c6PBp c6Parent1 (by decide) (by decide) (by decide)
  exact ⟨h.1, h.2.2.1⟩

/-- C7: the `stop` member of the exposed `PM2API` management surface
invokes `loadPlugin`, not `stopPlugin`: on a loader whose plugin is
loaded and started, the exposed stop fails `AlreadyLoaded` and leaves
the plugin started, whereas the engine's `stopPlugin` succeeds, removes
it from the started map and schedules the `pluginStopped` emission. -/
theorem C7_exposed_stop_is_load :
    (pm2apiStop extT c7L "a.p.js").res = .error (.alreadyLoaded "a.p.js") ∧
    jsGet (pm2apiStop extT c7L "a.p.js").loader.st.startedPlugins "a.p.js"
      = some pA0 ∧
    (Loader.stopPlugin c7L "a.p.js").res = .ok .done ∧
    jsGet (Loader.stopPlugin c7L "a.p.js").loader.st.startedPlugins
        "a.p.js" = none ∧
    (Loader.stopPlugin c7L "a.p.js").tasks
      = [.emitStopped "a.p.js" pA0.meta] := by
  refine ⟨?_, ?_, ?_, ?_, ?_⟩ <;> decide

/-- C8: once `resolvePluginFilename` has succeeded for an identifier,
every later call for the same identifier returns the same filename,
whatever the plugin directory now lists; and no interleaved resolver
call for any identifier disturbs the cached entry. -/
theorem C8_resolver_cache_stable (st : LoaderState) (fileID f : String)
    (st1 : LoaderState)
    (h : resolvePluginFilename st fileID = .ok (f, st1)) :
    (∀ dirFiles : List String,
      resolvePluginFilename { st1 with pluginDirFiles := dirFiles } fileID =
        .ok (f, { st1 with pluginDirFiles := dirFiles })) ∧
    (∀ dirFiles id' f' st2,
      resolvePluginFilename { st1 with pluginDirFiles := dirFiles } id' =
        .ok (f', st2) →
      (jsGet st2.resolverTable fileID).getD "" = f) := by
  obtain ⟨hshape, hne, hcache⟩ := resolve_ok_shape st fileID f st1 h
  constructor
  · intro dirFiles
    unfold resolvePluginFilename
    have hc : (jsGet ({ st1 with pluginDirFiles := dirFiles }
        : LoaderState).resolverTable fileID).getD "" = f := hcache
    simp only [hc]
    rw [if_pos (by simpa [bne_iff_ne] using hne)]
  · intro dirFiles id' f' st2 h2
    rcases resolve_ok_cases _ id' f' st2 h2 with heq | ⟨htbl, hmiss⟩
    · rw [heq]
      exact hcache
    · by_cases hid : id' = fileID
      · subst hid
        rw [hcache] at hmiss
        exact absurd hmiss hne
      · rw [htbl]
        have h3 : jsGet (jsSet ({ st1 with pluginDirFiles := dirFiles }
            : LoaderState).resolverTable id' f') fileID
            = jsGet st1.resolverTable fileID :=
          jsGet_jsSet_ne _ fileID id' f' hid
        rw [h3]
        exact hcache

/-- C8 witness: after resolving `a.p.js` once, the same call on a
loader state whose plugin directory has been emptied still returns
`a.p.js` from the cache. -/
theorem C8_witness :
    resolvePluginFilename { c5St1 with pluginDirFiles := [] } "a.p.js" =
      .ok ("a.p.js", { c5St1 with pluginDirFiles := [] }) :=
  (C8_resolver_cache_stable c5St "a.p.js" "a.p.js" c5St1 (by decide)).1 []

/-- C9: a `pluginStopped`/`pluginUnloaded` event whose filename has no
dependency-tree entry makes the cascade handler apply `Object.entries`
to `undefined`: the handler errors instead of completing as a no-op,
the loader is left unchanged, no work is scheduled, and the conditional
removal of the tree entry is never reached. -/
theorem C9_cascade_missing_entry_errors (ext : Ext) (l : Loader)
    (filename : String)
    (h : jsGet l.st.dependencyTree filename = none) :
    cascadeHandler ext l filename = (some .jsTypeError, l, []) := by
  unfold cascadeHandler
  simp only [h]

/-- C9 witness: a loader whose dependency tree is empty errors on the
unload event of its own (dependency-free) plugin. -/
theorem C9_witness :
    jsGet c9L.st.dependencyTree "a.p.js" = none ∧
    cascadeHandler extT c9L "a.p.js" = (some .jsTypeError, c9L, []) :=
  ⟨by decide, C9_cascade_missing_entry_errors extT c9L "a.p.js" (by decide)⟩

/-- C10: resolving the empty identifier never raises
`InvalidPluginError` (the error object on source line 397 is built but
not thrown): when the directory lists at least one plugin file the
first one is returned and cached under the empty identifier (every
filename contains the empty string), and only an empty listing yields
`FileNotFoundError`. -/
theorem C10_empty_id_resolution (st : LoaderState)
    (hmiss : (jsGet st.resolverTable "").getD "" = "") :
    (listPluginsLocal st = [] →
      resolvePluginFilename st "" = .error (.fileNotFound "")) ∧
    (∀ f rest, listPluginsLocal st = f :: rest →
      resolvePluginFilename st "" =
        .ok (f, { st with resolverTable := jsSet st.resolverTable "" f })) ∧
    (∀ e, resolvePluginFilename st "" = .error e → e = .fileNotFound "") := by
  have hbranch : ∀ r : Except PLError (String × LoaderState),
      resolvePluginFilename st "" = r →
      (match (listPluginsLocal st).find? (fun fn => jsIncludes fn "") with
        | none => (Except.error (PLError.fileNotFound "") :
            Except PLError (String × LoaderState))
        | some rf => .ok (rf,
            { st with resolverTable := jsSet st.resolverTable "" rf })) = r := by
    intro r hr
    unfold resolvePluginFilename at hr
    rw [hmiss] at hr
    simpa using hr
  refine ⟨?_, ?_, ?_⟩
  · intro hnil
    have h1 := hbranch _ rfl
    rw [hnil] at h1
    simpa using h1.symm
  · intro f rest hcons
    have h1 := hbranch _ rfl
    rw [hcons] at h1
    rw [List.find?] at h1
    rw [jsIncludes_empty_needle f] at h1
    simpa using h1.symm
  · intro e he
    have h1 := hbranch _ he
    cases hfind : (listPluginsLocal st).find? (fun fn => jsIncludes fn "") with
    | none =>
      rw [hfind] at h1
      simp at h1
      simp [h1]
    | some rf =>
      rw [hfind] at h1
      simp at h1

/-- C10 witness: on the two-file directory, resolving the empty
identifier returns the first listed plugin file and caches it. -/
theorem C10_witness :
    resolvePluginFilename st34 "" =
      .ok ("a.p.js",
        { st34 with resolverTable := jsSet st34.resolverTable "" "a.p.js" }) :=
  (C10_empty_id_resolution st34 (by decide)).2.1 "a.p.js" ["xa.p.js"]
    (by decide)

end BotCore
